import Mathlib

/-!
Verification of the facet storage gateway.

This file gives a shallow embedding of the storage core of the repository:

* `PickleCRUD` (src/api/gateway.py): a whole-file key-value store holding a
  Python dict from record key to `FaceData`.  The dict is modelled as an
  association list `List (String × α)` that preserves Python's insertion
  order; `dictSet` mirrors `data[key] = value` (in-place value replacement
  when the key is present, append otherwise) and `dictErase` mirrors
  `del data[key]`.  Each mutating method performs a read-modify-write of the
  whole mapping and raises `KeyError` before writing when its precondition
  fails, so it is modelled as a function returning the persisted mapping
  after the call together with an optional raised error (`CrudError`,
  abstracting the two `KeyError` messages as `duplicateKey` / `notFound`).

* `FaceDataHandler` (src/api/gateway/duck.py): the DuckDB table `face_data`
  keyed by `face_id`, modelled as an association list of flattened rows.
  `create` issues INSERT OR REPLACE (upsert); `update` issues an UPDATE with
  no affected-row check (silent no-op on a missing key).  The JSON-text
  serialization of the embedding column is an invertible representation and
  is modelled by the embedding list itself.

* `get_all_faces` (src/api/api.py, lines 323-346): pagination by Python list
  slicing `faces_list[offset : offset + page_length]` with
  `offset = (page_number - 1) * page_length`.

* `populate_persons_table` (src/api/gateway/import_people.py): groups face
  documents by `str(json_data.get("group_id"))`, derives the display name
  with `os.path.basename(os.path.dirname(image_path))` (both embedded
  following CPython's posixpath), and INSERT OR REPLACEs one row per group
  into the `people` table.

Numeric JSON/detector fields are stored and returned verbatim by every code
path in scope (no arithmetic is ever performed on them), so they are
modelled as exact rationals.  The derived, environment-dependent `url`
display field of the pydantic `FaceData` model is outside the stored data
and is not modelled.  JSON documents are modelled after parsing: a field
that may be missing from the document is an `Option`; files whose JSON
fails to load are skipped by the pipelines exactly like documents whose
conversion fails, which the model covers by the conversion-failure case.
-/

/-- Bounding box of a detected face (src/api/models.py, `BoundingBox`). -/
structure BoundingBox where
  x : Rat
  y : Rat
  width : Rat
  height : Rat
deriving DecidableEq, Repr

/-- Extra attributes of a detected face (src/api/models.py, `Attributes`). -/
structure Attributes where
  race : String
  race_confidence : Rat
deriving DecidableEq, Repr

/-- Face record (src/api/models.py, `FaceData`), without the derived `url`
display field. -/
structure FaceData where
  face_id : String
  face_path : String
  image_path : String
  bounding_box : BoundingBox
  face_confidence : Rat
  attributes : Attributes
  group_id : Option Int
  embedding : List Rat
deriving DecidableEq, Repr

/-- Typed storage errors: `duplicateKey` abstracts the
`KeyError("... already exists.")` raised by `PickleCRUD.create`, `notFound`
the `KeyError("... does not exist.")` raised by `update` and `delete`. -/
inductive CrudError where
  | duplicateKey
  | notFound
deriving DecidableEq, Repr

/-- Python dict membership `key in data`. -/
def containsKey {α : Type} (s : List (String × α)) (k : String) : Bool :=
  s.any (fun p => p.1 == k)

/-- Python dict lookup `data[key]` / `data.get(key)` as an option. -/
def lookup {α : Type} (s : List (String × α)) (k : String) : Option α :=
  (s.find? (fun p => p.1 == k)).map Prod.snd

/-- Python dict assignment `data[key] = value`: replace the value in place
when the key is present (the stored key object is kept), append otherwise. -/
def dictSet {α : Type} (s : List (String × α)) (k : String) (v : α) :
    List (String × α) :=
  if containsKey s k then s.map (fun p => if p.1 == k then (p.1, v) else p)
  else s ++ [(k, v)]

/-- Python dict deletion `del data[key]`. -/
def dictErase {α : Type} (s : List (String × α)) (k : String) :
    List (String × α) :=
  s.filter (fun p => !(p.1 == k))

/-- Fold `dictSet` over a list of key-value pairs. -/
def setAll {α : Type} (s : List (String × α)) (ps : List (String × α)) :
    List (String × α) :=
  ps.foldl (fun t p => dictSet t p.1 p.2) s

/-- Value of the last pair in `ps` carrying key `k`, if any. -/
def lastVal {α : Type} (ps : List (String × α)) (k : String) : Option α :=
  (ps.reverse.find? (fun p => p.1 == k)).map Prod.snd

/-- The pickle file content: a mapping from record key to `FaceData`. -/
abbrev FaceStore := List (String × FaceData)

/-- `PickleCRUD.create` (src/api/gateway.py, lines 71-88): read the mapping,
raise `KeyError` if the key is present (leaving the file untouched),
otherwise insert and rewrite the whole file.  Returns the persisted mapping
after the call together with the raised error, if any. -/
def PickleCRUD.create (data : FaceStore) (key : String) (value : FaceData) :
    FaceStore × Option CrudError :=
  if containsKey data key then (data, some .duplicateKey)
  else (dictSet data key value, none)

/-- `PickleCRUD.read` (src/api/gateway.py, lines 90-105): return the record
or `None`; never raises for a missing key. -/
def PickleCRUD.read (data : FaceStore) (key : String) : Option FaceData :=
  lookup data key

/-- `PickleCRUD.update` (src/api/gateway.py, lines 124-141): raise `KeyError`
if the key is absent (file untouched), else overwrite and rewrite. -/
def PickleCRUD.update (data : FaceStore) (key : String) (value : FaceData) :
    FaceStore × Option CrudError :=
  if containsKey data key then (dictSet data key value, none)
  else (data, some .notFound)

/-- `PickleCRUD.delete` (src/api/gateway.py, lines 143-159): raise `KeyError`
if the key is absent (file untouched), else remove and rewrite. -/
def PickleCRUD.delete (data : FaceStore) (key : String) :
    FaceStore × Option CrudError :=
  if containsKey data key then (dictErase data key, none)
  else (data, some .notFound)

/-- `get_all_faces` (src/api/api.py, lines 323-346): list the mapping's
values, compute `offset = (page_number - 1) * page_length`, and return the
slice `faces_list[offset : offset + page_length]`.  FastAPI validates
`page_number ≥ 1` and `page_length ≥ 1` (`Query(1, ge=1)`), so both are
naturals here. -/
def get_all_faces (store : FaceStore) (page_number page_length : Nat) :
    List FaceData :=
  let faces_list := store.map Prod.snd
  let offset := (page_number - 1) * page_length
  (faces_list.drop offset).take page_length

/-- One row of the DuckDB `face_data` table (src/api/gateway/duck.py,
lines 69-84): the flattened columns of a face record.  The `embedding`
column stores a JSON-text serialization of the vector; the encoding is
invertible and is modelled by the vector itself. -/
structure FaceRow where
  face_id : String
  face_path : String
  image_path : String
  bounding_box_x : Rat
  bounding_box_y : Rat
  bounding_box_width : Rat
  bounding_box_height : Rat
  face_confidence : Rat
  attributes_race : String
  attributes_race_confidence : Rat
  group_id : Option Int
  embedding : List Rat
deriving DecidableEq, Repr

/-- The DuckDB `face_data` table, keyed by `face_id`. -/
abbrev DuckStore := List (String × FaceRow)

/-- Flattening of a `FaceData` into the tuple bound by
`FaceDataHandler.create` (src/api/gateway/duck.py, lines 96-119). -/
def rowOfFaceData (fd : FaceData) : FaceRow :=
  ⟨fd.face_id, fd.face_path, fd.image_path, fd.bounding_box.x,
    fd.bounding_box.y, fd.bounding_box.width, fd.bounding_box.height,
    fd.face_confidence, fd.attributes.race, fd.attributes.race_confidence,
    fd.group_id, fd.embedding⟩

/-- `FaceDataHandler._convert_row_to_facedata` (src/api/gateway/duck.py,
lines 223-259): rebuild a `FaceData` from a row, deserializing the
embedding. -/
def rowToFaceData (r : FaceRow) : FaceData :=
  ⟨r.face_id, r.face_path, r.image_path,
    ⟨r.bounding_box_x, r.bounding_box_y, r.bounding_box_width,
      r.bounding_box_height⟩,
    r.face_confidence, ⟨r.attributes_race, r.attributes_race_confidence⟩,
    r.group_id, r.embedding⟩

/-- `FaceDataHandler.create` (src/api/gateway/duck.py, lines 87-130):
`INSERT OR REPLACE` keyed by `face_id` — an upsert that always succeeds,
overwriting an existing row with the same key. -/
def FaceDataHandler.create (t : DuckStore) (face_data : FaceData) :
    DuckStore :=
  dictSet t face_data.face_id (rowOfFaceData face_data)

/-- `FaceDataHandler.read` (src/api/gateway/duck.py, lines 132-153): indexed
point query returning the converted row or `None`. -/
def FaceDataHandler.read (t : DuckStore) (face_id : String) :
    Option FaceData :=
  (lookup t face_id).map rowToFaceData

/-- `FaceDataHandler.update` (src/api/gateway/duck.py, lines 166-204): an
`UPDATE ... WHERE face_id = ?` that sets every non-key column; there is no
affected-row check, so a key matching no row leaves the table unchanged and
the call still reports success. -/
def FaceDataHandler.update (t : DuckStore) (face_id : String)
    (face_data : FaceData) : DuckStore :=
  t.map (fun p =>
    if p.1 == face_id then
      (p.1, { rowOfFaceData face_data with face_id := p.1 })
    else p)

/-- `FaceDataHandler.delete` (src/api/gateway/duck.py, lines 206-221):
`DELETE ... WHERE face_id = ?`, again with no affected-row check. -/
def FaceDataHandler.delete (t : DuckStore) (face_id : String) : DuckStore :=
  t.filter (fun p => !(p.1 == face_id))

/-- A parsed JSON face document.  Every field the pipelines access through
`json_data[...]` or `json_data.get(...)` is optional, so that a missing key
is representable; `group_id` distinguishes a missing key (`none`) from an
explicit JSON `null` (`some none`). -/
structure JsonDoc where
  face_id : Option String
  face_path : Option String
  image_path : Option String
  bounding_box_x : Option Rat
  bounding_box_y : Option Rat
  bounding_box_width : Option Rat
  bounding_box_height : Option Rat
  face_confidence : Option Rat
  attributes_race : Option String
  attributes_race_confidence : Option Rat
  group_id : Option (Option Int)
  embedding : Option (List Rat)
deriving DecidableEq, Repr

/-- Python truthiness of an optional string: `None` and `""` are falsy. -/
def pyTruthy : Option String → Bool
  | none => false
  | some s => s != ""

/-- `PickleCRUD._convert_to_facedata` (src/api/gateway.py, lines 309-339):
index every required field (a `KeyError` on any missing one, caught by
the importing loop, is the `none` result).  The `group_id` key must be
present but
its value may be `null`. -/
def convert_to_facedata (j : JsonDoc) : Option FaceData :=
  match j.face_id, j.face_path, j.image_path, j.bounding_box_x,
      j.bounding_box_y, j.bounding_box_width, j.bounding_box_height,
      j.face_confidence, j.attributes_race, j.attributes_race_confidence,
      j.group_id, j.embedding with
  | some fid, some fp, some ip, some bx, some bby, some bw, some bh,
      some fc, some ar, some arc, some gid, some emb =>
    some ⟨fid, fp, ip, ⟨bx, bby, bw, bh⟩, fc, ⟨ar, arc⟩, gid, emb⟩
  | _, _, _, _, _, _, _, _, _, _, _, _ => none

/-- One iteration of the loop of `PickleCRUD.import_metadata`
(src/api/gateway.py, lines 171-182): fetch `face_id` with `.get`, skip the
document unless it is truthy, convert it (an exception is caught and the
file skipped), and upsert with `data[face_id] = face_data`. -/
def importOne (data : FaceStore) (d : JsonDoc) : FaceStore :=
  match d.face_id with
  | some fid =>
    if fid == "" then data
    else
      match convert_to_facedata d with
      | some fd => dictSet data fid fd
      | none => data
  | none => data

/-- `PickleCRUD.import_metadata` (src/api/gateway.py, lines 161-184): fold
the per-file step over the parsed documents of the folder, then write the
accumulated mapping once. -/
def PickleCRUD.import_metadata (data : FaceStore) (docs : List JsonDoc) :
    FaceStore :=
  docs.foldl importOne data

/-- The key-value assignment a document contributes to the import, if any. -/
def assignOf (d : JsonDoc) : Option (String × FaceData) :=
  match d.face_id with
  | some fid =>
    if fid == "" then none
    else (convert_to_facedata d).map (fun fd => (fid, fd))
  | none => none

/-- Python `str` applied to the result of `json_data.get("group_id")`:
`str(None)` is the non-empty string `"None"`. -/
def pyStr : Option Int → String
  | none => "None"
  | some n => toString n

/-- CPython `posixpath.basename`: the suffix after the last slash. -/
def basename (p : String) : String :=
  String.mk ((p.data.reverse.takeWhile (fun c => c != '/')).reverse)

/-- CPython `posixpath.dirname`: everything up to the last slash, with
trailing slashes stripped unless the result would be empty or consists of
slashes only. -/
def dirname (p : String) : String :=
  let head := (p.data.reverse.dropWhile (fun c => c != '/')).reverse
  let stripped := (head.reverse.dropWhile (fun c => c == '/')).reverse
  if stripped.isEmpty then String.mk head else String.mk stripped

/-- The in-memory aggregation entry of `populate_persons_table`: the
defaultdict value `{"name": None, "face_ids": []}`. -/
structure PersonAcc where
  name : Option String
  face_ids : List String
deriving DecidableEq, Repr

/-- One row of the DuckDB `people` table (src/api/gateway/import_people.py,
lines 30-36): `id`, `name`, and the face-id list serialized as JSON text
(modelled by the list itself). -/
structure PersonRow where
  id : String
  name : Option String
  face_ids : List String
deriving DecidableEq, Repr

/-- The DuckDB `people` table, keyed by `id`. -/
abbrev PeopleStore := List (String × PersonRow)

/-- The body of the aggregation loop of `populate_persons_table`
(src/api/gateway/import_people.py, lines 65-73): append `face_id` to the
group's entry (creating the defaultdict entry if needed) and set the
group's name if it is still unset. -/
def addFace (acc : List (String × PersonAcc)) (gid fid name : String) :
    List (String × PersonAcc) :=
  if containsKey acc gid then
    acc.map (fun p =>
      if p.1 == gid then
        (p.1,
          ⟨match p.2.name with
            | none => some name
            | some n => some n,
            p.2.face_ids ++ [fid]⟩)
      else p)
  else acc ++ [(gid, ⟨some name, [fid]⟩)]

/-- One file of the aggregation loop of `populate_persons_table`
(src/api/gateway/import_people.py, lines 52-73): take
`str(json_data.get("group_id"))`, `.get("face_id")`, `.get("image_path")`;
skip the file when any of the three is falsy; otherwise derive the name
from the image path and add the face to its group. -/
def personsStep (acc : List (String × PersonAcc)) (d : JsonDoc) :
    List (String × PersonAcc) :=
  let gid := pyStr (Option.join d.group_id)
  match d.face_id, d.image_path with
  | some fid, some ip =>
    if gid == "" || fid == "" || ip == "" then acc
    else addFace acc gid fid (basename (dirname ip))
  | _, _ => acc

/-- The insertion loop of `populate_persons_table`
(src/api/gateway/import_people.py, lines 80-96): one
`INSERT OR REPLACE INTO people` per aggregated group, in the dict's
insertion order. -/
def insertPersonRows (people : PeopleStore)
    (pdata : List (String × PersonAcc)) : PeopleStore :=
  pdata.foldl (fun st p => dictSet st p.1 ⟨p.1, p.2.name, p.2.face_ids⟩)
    people

/-- `populate_persons_table` (src/api/gateway/import_people.py,
lines 14-98): aggregate the folder's documents by stringified group id,
then upsert one `people` row per group into the (possibly pre-existing)
table. -/
def populate_persons_table (people : PeopleStore) (docs : List JsonDoc) :
    PeopleStore :=
  insertPersonRows people (docs.foldl personsStep [])

/-! ### Association-list (Python dict) lemmas -/

lemma containsKey_nil {α : Type} (k : String) :
    containsKey ([] : List (String × α)) k = false := rfl

lemma containsKey_cons {α : Type} (p : String × α) (t : List (String × α))
    (k : String) : containsKey (p :: t) k = ((p.1 == k) || containsKey t k) := by
  simp [containsKey]

lemma lookup_nil {α : Type} (k : String) :
    lookup ([] : List (String × α)) k = none := rfl

lemma lookup_cons {α : Type} (p : String × α) (t : List (String × α))
    (k : String) :
    lookup (p :: t) k = if p.1 == k then some p.2 else lookup t k := by
  cases hb : (p.1 == k) with
  | false =>
    have hf : (p :: t).find? (fun q => q.1 == k) = t.find? (fun q => q.1 == k) :=
      List.find?_cons_of_neg _ (by simp [hb])
    simp [lookup, hf, hb]
  | true =>
    have hf : (p :: t).find? (fun q => q.1 == k) = some p :=
      List.find?_cons_of_pos _ hb
    simp [lookup, hf, hb]

lemma lookup_eq_none_of_not_contains {α : Type} (s : List (String × α))
    (k : String) (h : containsKey s k = false) : lookup s k = none := by
  induction s with
  | nil => rfl
  | cons p t ih =>
    rw [containsKey_cons, Bool.or_eq_false_iff] at h
    rw [lookup_cons, h.1]
    exact ih h.2

lemma lookup_isSome_of_contains {α : Type} (s : List (String × α))
    (k : String) (h : containsKey s k = true) : (lookup s k).isSome := by
  induction s with
  | nil => simp [containsKey] at h
  | cons p t ih =>
    rw [containsKey_cons] at h
    rw [lookup_cons]
    cases hb : (p.1 == k) with
    | true => simp
    | false =>
      rw [hb] at h
      simp only [Bool.false_or] at h
      simpa using ih h

lemma contains_of_lookup_some {α : Type} (s : List (String × α))
    (k : String) (v : α) (h : lookup s k = some v) :
    containsKey s k = true := by
  by_contra hc
  rw [lookup_eq_none_of_not_contains s k (by simpa using hc)] at h
  exact Option.noConfusion h

lemma lookup_append_of_none {α : Type} (s₁ s₂ : List (String × α))
    (k : String) (h : lookup s₁ k = none) :
    lookup (s₁ ++ s₂) k = lookup s₂ k := by
  induction s₁ with
  | nil => rfl
  | cons p t ih =>
    rw [lookup_cons] at h
    cases hb : (p.1 == k) with
    | true => simp [hb] at h
    | false =>
      simp only [hb, Bool.false_eq_true, if_false] at h
      rw [List.cons_append, lookup_cons, if_neg (by simp [hb])]
      exact ih h

lemma lookup_append_of_some {α : Type} (s₁ s₂ : List (String × α))
    (k : String) (v : α) (h : lookup s₁ k = some v) :
    lookup (s₁ ++ s₂) k = some v := by
  induction s₁ with
  | nil => simp [lookup] at h
  | cons p t ih =>
    rw [lookup_cons] at h
    rw [List.cons_append, lookup_cons]
    cases hb : (p.1 == k) with
    | true => rw [hb] at h; simpa [hb] using h
    | false =>
      rw [hb] at h
      simp only [Bool.false_eq_true, if_false] at h ⊢
      exact ih h

lemma lookup_map_replace_self {α : Type} (s : List (String × α))
    (k : String) (v : α) (h : containsKey s k = true) :
    lookup (s.map (fun p => if p.1 == k then (p.1, v) else p)) k = some v := by
  induction s with
  | nil => simp [containsKey] at h
  | cons p t ih =>
    rw [containsKey_cons] at h
    cases hb : (p.1 == k) with
    | true =>
      simp only [List.map_cons, hb, if_true]
      rw [lookup_cons]
      simp [hb]
    | false =>
      rw [hb] at h
      simp only [Bool.false_or] at h
      simp only [List.map_cons, hb, Bool.false_eq_true, if_false]
      rw [lookup_cons, if_neg (by simp [hb])]
      exact ih h

lemma lookup_map_replace_ne {α : Type} (s : List (String × α))
    (k : String) (v : α) (k' : String) (h : k' ≠ k) :
    lookup (s.map (fun p => if p.1 == k then (p.1, v) else p)) k'
      = lookup s k' := by
  induction s with
  | nil => rfl
  | cons p t ih =>
    cases hb : (p.1 == k) with
    | true =>
      have hpk : p.1 = k := by simpa using hb
      have hb' : (p.1 == k') = false := by
        simp only [beq_eq_false_iff_ne, ne_eq, hpk]
        exact fun hh => h hh.symm
      simp only [List.map_cons, hb, if_true]
      rw [lookup_cons, lookup_cons]
      simp only [hb', Bool.false_eq_true, if_false]
      exact ih
    | false =>
      simp only [List.map_cons, hb, Bool.false_eq_true, if_false]
      rw [lookup_cons, lookup_cons]
      cases hb' : (p.1 == k') with
      | true => simp [hb']
      | false => simpa [hb'] using ih

lemma lookup_dictSet_self {α : Type} (s : List (String × α)) (k : String)
    (v : α) : lookup (dictSet s k v) k = some v := by
  unfold dictSet
  by_cases h : containsKey s k = true
  · rw [if_pos h]
    exact lookup_map_replace_self s k v h
  · rw [if_neg h]
    rw [lookup_append_of_none _ _ _
      (lookup_eq_none_of_not_contains s k (by simpa using h))]
    rw [lookup_cons]
    simp

lemma lookup_dictSet_ne {α : Type} (s : List (String × α)) (k : String)
    (v : α) (k' : String) (h : k' ≠ k) :
    lookup (dictSet s k v) k' = lookup s k' := by
  unfold dictSet
  by_cases hc : containsKey s k = true
  · rw [if_pos hc]
    exact lookup_map_replace_ne s k v k' h
  · rw [if_neg hc]
    cases hl : lookup s k' with
    | some v' => exact lookup_append_of_some s _ k' v' hl
    | none =>
      rw [lookup_append_of_none s _ k' hl, lookup_cons]
      rw [if_neg (by simpa using fun hh : k = k' => h hh.symm)]
      rfl

lemma lookup_dictErase_self {α : Type} (s : List (String × α))
    (k : String) : lookup (dictErase s k) k = none := by
  induction s with
  | nil => rfl
  | cons p t ih =>
    unfold dictErase at ih ⊢
    cases hb : (p.1 == k) with
    | true => simpa [List.filter_cons, hb] using ih
    | false =>
      simp only [List.filter_cons, hb, Bool.not_false, if_pos]
      rw [lookup_cons, if_neg (by simp [hb])]
      exact ih

lemma lookup_dictErase_ne {α : Type} (s : List (String × α)) (k : String)
    (k' : String) (h : k' ≠ k) :
    lookup (dictErase s k) k' = lookup s k' := by
  induction s with
  | nil => rfl
  | cons p t ih =>
    unfold dictErase at ih ⊢
    cases hb : (p.1 == k) with
    | true =>
      have hpk : p.1 = k := by simpa using hb
      have hb' : (p.1 == k') = false := by
        simpa using (fun hh : p.1 = k' => h (hh.symm.trans hpk))
      simp only [List.filter_cons, hb, Bool.not_true, Bool.false_eq_true,
        if_false]
      rw [lookup_cons, if_neg (by simp [hb'])]
      exact ih
    | false =>
      simp only [List.filter_cons, hb, Bool.not_false, if_true]
      rw [lookup_cons, lookup_cons]
      cases hb' : (p.1 == k') with
      | true => simp [hb']
      | false => simpa [hb'] using ih

lemma contains_dictSet_self {α : Type} (s : List (String × α)) (k : String)
    (v : α) : containsKey (dictSet s k v) k = true :=
  contains_of_lookup_some _ k v (lookup_dictSet_self s k v)

/-- Rebuilding a `FaceData` from the row `FaceDataHandler.create` stores for
it yields the record back (round trip through the flattened columns). -/
lemma rowToFaceData_rowOfFaceData (fd : FaceData) :
    rowToFaceData (rowOfFaceData fd) = fd := rfl

/-- An `UPDATE ... WHERE face_id = ?` whose key matches no row leaves the
table unchanged. -/
lemma duck_update_noop (k : String) (w : FaceData) :
    ∀ t : DuckStore, containsKey t k = false →
      FaceDataHandler.update t k w = t := by
  intro t
  unfold FaceDataHandler.update
  induction t with
  | nil => intro _; rfl
  | cons p r ih =>
    intro h
    rw [containsKey_cons, Bool.or_eq_false_iff] at h
    simp only [List.map_cons, h.1, Bool.false_eq_true, if_false]
    rw [ih h.2]

/-! ### Claim theorems: CRUD contract of the two backends -/

/-- Claim C1: for every `FaceRecord` `R` and key `K` not already present in
the key-value backend's mapping, `create(K,R)` succeeds and a subsequent
`read(K)` returns a record equal to `R`. -/
theorem C1_create_then_read (s : FaceStore) (k : String) (v : FaceData)
    (h : containsKey s k = false) :
    (PickleCRUD.create s k v).2 = none ∧
    PickleCRUD.read (PickleCRUD.create s k v).1 k = some v := by
  unfold PickleCRUD.create
  rw [if_neg (by simp [h])]
  exact ⟨rfl, lookup_dictSet_self s k v⟩

/-- Sample face record used to instantiate the claim theorems. -/
def sampleFace : FaceData :=
  ⟨"f1", "/repo/data/faces/f1.png", "/repo/data/images/Jane_Doe/001.jpg",
    ⟨1, 2, 3, 4⟩, 1, ⟨"unknown", 1⟩, some 7, [1, 2]⟩

/-- A second sample record sharing the key of `sampleFace`. -/
def sampleFace2 : FaceData :=
  ⟨"f1", "/repo/data/faces/f1b.png", "/repo/data/images/Jane_Doe/002.jpg",
    ⟨5, 6, 7, 8⟩, 1, ⟨"unknown", 1⟩, some 7, [3, 4]⟩

theorem C1_create_then_read_witness :
    containsKey ([] : FaceStore) "f1" = false ∧
    ((PickleCRUD.create [] "f1" sampleFace).2 = none ∧
      PickleCRUD.read (PickleCRUD.create [] "f1" sampleFace).1 "f1"
        = some sampleFace) :=
  ⟨rfl, C1_create_then_read [] "f1" sampleFace rfl⟩

/-- Claim C2: calling create twice with the same key: the key-value backend
raises `DuplicateKey` on the second call and leaves the stored record
unchanged, while the relational backend's create (INSERT OR REPLACE, always
a success by construction of `FaceDataHandler.create`) overwrites the
existing row, so the duplicate create wins. -/
theorem C2_duplicate_create (s : FaceStore) (k : String) (v₁ v₂ : FaceData)
    (t : DuckStore) (w₁ w₂ : FaceData)
    (h : containsKey s k = false) (hw : w₂.face_id = w₁.face_id) :
    (PickleCRUD.create s k v₁).2 = none ∧
    (PickleCRUD.create (PickleCRUD.create s k v₁).1 k v₂).2
      = some CrudError.duplicateKey ∧
    (PickleCRUD.create (PickleCRUD.create s k v₁).1 k v₂).1
      = (PickleCRUD.create s k v₁).1 ∧
    PickleCRUD.read (PickleCRUD.create (PickleCRUD.create s k v₁).1 k v₂).1 k
      = some v₁ ∧
    FaceDataHandler.read
        (FaceDataHandler.create (FaceDataHandler.create t w₁) w₂) w₁.face_id
      = some w₂ := by
  have h1 : PickleCRUD.create s k v₁ = (dictSet s k v₁, none) := by
    unfold PickleCRUD.create
    rw [if_neg (by simp [h])]
  have hc : containsKey (dictSet s k v₁) k = true :=
    contains_dictSet_self s k v₁
  have h2 : PickleCRUD.create (dictSet s k v₁) k v₂
      = (dictSet s k v₁, some CrudError.duplicateKey) := by
    unfold PickleCRUD.create
    rw [if_pos hc]
  have h3 : PickleCRUD.read (dictSet s k v₁) k = some v₁ :=
    lookup_dictSet_self s k v₁
  have h4 : FaceDataHandler.read
      (FaceDataHandler.create (FaceDataHandler.create t w₁) w₂) w₁.face_id
      = some w₂ := by
    unfold FaceDataHandler.read FaceDataHandler.create
    rw [← hw, lookup_dictSet_self]
    rfl
  simp [h1, h2, h3, h4]

theorem C2_duplicate_create_witness :
    containsKey ([] : FaceStore) "f1" = false ∧
    sampleFace2.face_id = sampleFace.face_id ∧
    ((PickleCRUD.create [] "f1" sampleFace).2 = none ∧
      (PickleCRUD.create (PickleCRUD.create [] "f1" sampleFace).1 "f1"
          sampleFace2).2 = some CrudError.duplicateKey ∧
      (PickleCRUD.create (PickleCRUD.create [] "f1" sampleFace).1 "f1"
          sampleFace2).1 = (PickleCRUD.create [] "f1" sampleFace).1 ∧
      PickleCRUD.read (PickleCRUD.create (PickleCRUD.create [] "f1"
          sampleFace).1 "f1" sampleFace2).1 "f1" = some sampleFace ∧
      FaceDataHandler.read (FaceDataHandler.create
          (FaceDataHandler.create [] sampleFace) sampleFace2)
          sampleFace.face_id = some sampleFace2) :=
  ⟨rfl, rfl,
    C2_duplicate_create [] "f1" sampleFace sampleFace2 [] sampleFace
      sampleFace2 rfl rfl⟩

/-- Claim C3: in the key-value backend, `delete(K)` on a present key
succeeds and a subsequent `read(K)` returns absent; `delete(K)` on a
missing key fails with `NotFound` and leaves the file untouched; and
`read(K)` on a missing key returns the absent indicator (the model of
`read` is a total function into `Option`, so it never raises). -/
theorem C3_delete_then_read (s : FaceStore) (k : String) (s' : FaceStore)
    (k' : String) (h : containsKey s k = true)
    (h' : containsKey s' k' = false) :
    (PickleCRUD.delete s k).2 = none ∧
    PickleCRUD.read (PickleCRUD.delete s k).1 k = none ∧
    (PickleCRUD.delete s' k').2 = some CrudError.notFound ∧
    (PickleCRUD.delete s' k').1 = s' ∧
    PickleCRUD.read s' k' = none := by
  unfold PickleCRUD.delete
  rw [if_pos h, if_neg (by simp [h'])]
  exact ⟨rfl, lookup_dictErase_self s k, rfl, rfl,
    lookup_eq_none_of_not_contains s' k' h'⟩

theorem C3_delete_then_read_witness :
    containsKey [("f1", sampleFace)] "f1" = true ∧
    containsKey ([] : FaceStore) "f2" = false ∧
    ((PickleCRUD.delete [("f1", sampleFace)] "f1").2 = none ∧
      PickleCRUD.read (PickleCRUD.delete [("f1", sampleFace)] "f1").1 "f1"
        = none ∧
      (PickleCRUD.delete ([] : FaceStore) "f2").2
        = some CrudError.notFound ∧
      (PickleCRUD.delete ([] : FaceStore) "f2").1 = [] ∧
      PickleCRUD.read ([] : FaceStore) "f2" = none) :=
  ⟨rfl, rfl, C3_delete_then_read [("f1", sampleFace)] "f1" [] "f2" rfl rfl⟩

/-- Claim C4: `update(K,R2)` on a key not present fails with `NotFound` in
the key-value backend and leaves the mapping unchanged, whereas the
relational backend's update (a total function here, mirroring the missing
affected-row check) reports success and changes nothing. -/
theorem C4_update_missing_key (s : FaceStore) (k : String) (v : FaceData)
    (t : DuckStore) (k' : String) (w : FaceData)
    (h : containsKey s k = false) (h' : containsKey t k' = false) :
    (PickleCRUD.update s k v).2 = some CrudError.notFound ∧
    (PickleCRUD.update s k v).1 = s ∧
    FaceDataHandler.update t k' w = t := by
  unfold PickleCRUD.update
  rw [if_neg (by simp [h])]
  exact ⟨rfl, rfl, duck_update_noop k' w t h'⟩

theorem C4_update_missing_key_witness :
    containsKey ([] : FaceStore) "f1" = false ∧
    containsKey ([] : DuckStore) "f1" = false ∧
    ((PickleCRUD.update ([] : FaceStore) "f1" sampleFace).2
        = some CrudError.notFound ∧
      (PickleCRUD.update ([] : FaceStore) "f1" sampleFace).1 = [] ∧
      FaceDataHandler.update ([] : DuckStore) "f1" sampleFace = []) :=
  ⟨rfl, rfl, C4_update_missing_key [] "f1" sampleFace [] "f1" sampleFace
    rfl rfl⟩

/-- Claim C5: pagination is 1-based with offset `(page-1)*pageSize`: on a
collection of 25 records with page size 10, page 1 returns exactly 10
records, page 3 the remaining 5, and any page whose offset reaches past the
end (page 4 in particular) returns the empty result rather than an error
(`get_all_faces` is total). -/
theorem C5_pagination (s : FaceStore) (p ps : Nat) (h : s.length = 25)
    (hbeyond : 25 ≤ (p - 1) * ps) :
    (get_all_faces s 1 10).length = 10 ∧
    (get_all_faces s 3 10).length = 5 ∧
    get_all_faces s 4 10 = [] ∧
    get_all_faces s p ps = [] := by
  unfold get_all_faces
  have hl : (s.map Prod.snd).length = 25 := by simpa using h
  refine ⟨?_, ?_, ?_, ?_⟩
  · simp [List.length_take, List.length_drop, hl]
  · simp [List.length_take, List.length_drop, hl]
  · have hd : (s.map Prod.snd).drop ((4 - 1) * 10) = [] :=
      List.drop_eq_nil_of_le (by rw [hl]; norm_num)
    simp [hd]
  · have hd : (s.map Prod.snd).drop ((p - 1) * ps) = [] :=
      List.drop_eq_nil_of_le (by rw [hl]; exact hbeyond)
    simp [hd]

/-- A 25-record mapping used to instantiate the pagination claim. -/
def sampleStore : FaceStore :=
  (List.range 25).map (fun i => (toString i, sampleFace))

theorem C5_pagination_witness :
    sampleStore.length = 25 ∧ 25 ≤ (4 - 1) * 10 ∧
    ((get_all_faces sampleStore 1 10).length = 10 ∧
      (get_all_faces sampleStore 3 10).length = 5 ∧
      get_all_faces sampleStore 4 10 = [] ∧
      get_all_faces sampleStore 4 10 = []) :=
  ⟨by simp [sampleStore], by norm_num,
    C5_pagination sampleStore 4 10 (by simp [sampleStore]) (by norm_num)⟩

/-- Claim C10: frame property of the key-value backend — `create(K,R)`,
`update(K,R)` and `delete(K)` leave the mapping's entry for every other key
`K' ≠ K` exactly as it was before the operation. -/
theorem C10_mutations_frame (s : FaceStore) (k k' : String) (v : FaceData)
    (h : k' ≠ k) :
    PickleCRUD.read (PickleCRUD.create s k v).1 k' = PickleCRUD.read s k' ∧
    PickleCRUD.read (PickleCRUD.update s k v).1 k' = PickleCRUD.read s k' ∧
    PickleCRUD.read (PickleCRUD.delete s k).1 k' = PickleCRUD.read s k' := by
  unfold PickleCRUD.create PickleCRUD.update PickleCRUD.delete
    PickleCRUD.read
  by_cases hc : containsKey s k = true <;>
    simp [hc, lookup_dictSet_ne s k v k' h, lookup_dictErase_ne s k k' h]

theorem C10_mutations_frame_witness :
    ("a" : String) ≠ "b" ∧
    (PickleCRUD.read
        (PickleCRUD.create [("a", sampleFace)] "b" sampleFace2).1 "a"
      = PickleCRUD.read [("a", sampleFace)] "a" ∧
    PickleCRUD.read
        (PickleCRUD.update [("a", sampleFace)] "b" sampleFace2).1 "a"
      = PickleCRUD.read [("a", sampleFace)] "a" ∧
    PickleCRUD.read
        (PickleCRUD.delete [("a", sampleFace)] "b").1 "a"
      = PickleCRUD.read [("a", sampleFace)] "a") :=
  ⟨by decide, C10_mutations_frame [("a", sampleFace)] "b" "a" sampleFace2
    (by decide)⟩

/-! ### Characterization of the import folds -/

lemma containsKey_iff_mem {α : Type} (s : List (String × α)) (k : String) :
    containsKey s k = true ↔ k ∈ s.map Prod.fst := by
  induction s with
  | nil => simp [containsKey]
  | cons p t ih =>
    rw [containsKey_cons, List.map_cons, List.mem_cons, Bool.or_eq_true, ih]
    constructor
    · rintro (hb | hm)
      · have hpk : p.1 = k := by simpa using hb
        exact Or.inl hpk.symm
      · exact Or.inr hm
    · rintro (hb | hm)
      · exact Or.inl (by simp [hb])
      · exact Or.inr hm

lemma lookup_of_mem_nodup {α : Type} (ps : List (String × α)) (k : String)
    (v : α) (hmem : (k, v) ∈ ps) (hnd : (ps.map Prod.fst).Nodup) :
    lookup ps k = some v := by
  induction ps with
  | nil => cases hmem
  | cons p l ih =>
    rw [List.map_cons, List.nodup_cons] at hnd
    rcases List.mem_cons.mp hmem with heq | hmem'
    · rw [← heq, lookup_cons]
      simp
    · have hne : p.1 ≠ k := by
        intro hh
        exact hnd.1 (hh ▸ (by
          simpa using List.mem_map_of_mem Prod.fst hmem'))
      rw [lookup_cons, if_neg (by simp [hne])]
      exact ih hmem' hnd.2

lemma lastVal_cons {α : Type} (p : String × α) (l : List (String × α))
    (k : String) :
    lastVal (p :: l) k = match lastVal l k with
      | some v => some v
      | none => if p.1 == k then some p.2 else none := by
  unfold lastVal
  rw [List.reverse_cons, List.find?_append]
  cases hf : l.reverse.find? (fun q => q.1 == k) with
  | some q => simp [hf]
  | none =>
    cases hb : (p.1 == k) with
    | true =>
      have h1 : List.find? (fun q => q.1 == k) [p] = some p :=
        List.find?_cons_of_pos _ hb
      simp [hf, h1, hb]
    | false =>
      have h1 : List.find? (fun q => q.1 == k) [p] = none := by
        rw [List.find?_cons_of_neg _ (by simp [hb])]
        rfl
      simp [hf, h1, hb]

lemma lookup_setAll {α : Type} (ps : List (String × α)) :
    ∀ (s : List (String × α)) (k : String),
      lookup (setAll s ps) k = match lastVal ps k with
        | some v => some v
        | none => lookup s k := by
  induction ps with
  | nil => intro s k; rfl
  | cons p l ih =>
    intro s k
    have h1 : lookup (setAll s (p :: l)) k
        = match lastVal l k with
          | some v => some v
          | none => lookup (dictSet s p.1 p.2) k := ih (dictSet s p.1 p.2) k
    rw [h1, lastVal_cons]
    cases hl : lastVal l k with
    | some v => rfl
    | none =>
      cases hb : (p.1 == k) with
      | true =>
        have hk : p.1 = k := by simpa using hb
        simp only [hb, if_true]
        exact hk ▸ lookup_dictSet_self s p.1 p.2
      | false =>
        have hk : k ≠ p.1 := fun hh => absurd hh.symm (by simpa using hb)
        simp only [hb, Bool.false_eq_true, if_false]
        exact lookup_dictSet_ne s p.1 p.2 k hk

lemma containsKey_append {α : Type} (s₁ s₂ : List (String × α))
    (k : String) :
    containsKey (s₁ ++ s₂) k = (containsKey s₁ k || containsKey s₂ k) := by
  simp [containsKey, List.any_append]

lemma setAll_fresh {α : Type} (ps : List (String × α)) :
    ∀ s : List (String × α),
      (∀ p ∈ ps, containsKey s p.1 = false) →
      (ps.map Prod.fst).Nodup → setAll s ps = s ++ ps := by
  induction ps with
  | nil => intro s _ _; simp [setAll]
  | cons p l ih =>
    intro s hfresh hnodup
    rw [List.map_cons, List.nodup_cons] at hnodup
    have hp : containsKey s p.1 = false := hfresh p (List.mem_cons_self p l)
    have hset : dictSet s p.1 p.2 = s ++ [p] := by
      have hcond : ¬(containsKey s p.1 = true) := by simp [hp]
      unfold dictSet
      rw [if_neg hcond]
    have hfresh' : ∀ q ∈ l, containsKey (s ++ [p]) q.1 = false := by
      intro q hq
      rw [containsKey_append, Bool.or_eq_false_iff]
      refine ⟨hfresh q (List.mem_cons_of_mem p hq), ?_⟩
      have hne : p.1 ≠ q.1 := by
        intro hh
        exact hnodup.1 (hh ▸ (by
          simpa using List.mem_map_of_mem Prod.fst hq))
      simp [containsKey, hne]
    have h2 : setAll (dictSet s p.1 p.2) l = (s ++ [p]) ++ l := by
      rw [hset]
      exact ih (s ++ [p]) hfresh' hnodup.2
    calc setAll s (p :: l) = setAll (dictSet s p.1 p.2) l := rfl
      _ = (s ++ [p]) ++ l := h2
      _ = s ++ p :: l := by simp

lemma importOne_eq (s : FaceStore) (d : JsonDoc) :
    importOne s d = match assignOf d with
      | some p => dictSet s p.1 p.2
      | none => s := by
  unfold importOne assignOf
  cases hf : d.face_id with
  | none => rfl
  | some fid =>
    cases hb : (fid == "") with
    | true => simp [hb]
    | false =>
      cases hc : convert_to_facedata d with
      | none => simp [hb, hc]
      | some fd => simp [hb, hc]

lemma import_metadata_eq_setAll (docs : List JsonDoc) :
    ∀ s : FaceStore,
      PickleCRUD.import_metadata s docs
        = setAll s (docs.filterMap assignOf) := by
  induction docs with
  | nil => intro s; rfl
  | cons d ds ih =>
    intro s
    unfold PickleCRUD.import_metadata at ih ⊢
    rw [List.foldl_cons, importOne_eq, List.filterMap_cons]
    cases ha : assignOf d with
    | none => simpa using ih s
    | some p =>
      have h2 : setAll s (p :: ds.filterMap assignOf)
          = setAll (dictSet s p.1 p.2) (ds.filterMap assignOf) := rfl
      rw [h2]
      exact ih (dictSet s p.1 p.2)

lemma insertPersonRows_eq_setAll (people : PeopleStore)
    (pdata : List (String × PersonAcc)) :
    insertPersonRows people pdata
      = setAll people
          (pdata.map (fun p => (p.1, (⟨p.1, p.2.name, p.2.face_ids⟩ : PersonRow)))) := by
  unfold insertPersonRows setAll
  rw [List.foldl_map]

/-- Claim C9: the import pipeline is idempotent — running the face upsert
pass and the person-derivation pass twice in succession over the same
parsed documents leaves every key of the Face mapping and of the `people`
table with the same content as running it once. -/
theorem C9_import_idempotent (fs : FaceStore) (people : PeopleStore)
    (docs : List JsonDoc) (k g : String) :
    PickleCRUD.read
        (PickleCRUD.import_metadata (PickleCRUD.import_metadata fs docs) docs)
        k
      = PickleCRUD.read (PickleCRUD.import_metadata fs docs) k ∧
    lookup
        (populate_persons_table (populate_persons_table people docs) docs) g
      = lookup (populate_persons_table people docs) g := by
  constructor
  · show lookup _ k = lookup _ k
    simp only [import_metadata_eq_setAll, lookup_setAll]
    cases h : lastVal (docs.filterMap assignOf) k <;> simp [h]
  · unfold populate_persons_table
    rw [insertPersonRows_eq_setAll, insertPersonRows_eq_setAll,
      lookup_setAll, lookup_setAll]
    cases h : lastVal
        ((docs.foldl personsStep []).map
          (fun p => (p.1, (⟨p.1, p.2.name, p.2.face_ids⟩ : PersonRow)))) g <;>
      simp [h]

/-! ### The person-derivation pass -/

lemma personsStep_skip_noface (acc : List (String × PersonAcc)) (d : JsonDoc)
    (h : d.face_id = none) : personsStep acc d = acc := by
  cases hip : d.image_path <;> simp [personsStep, h, hip]

lemma personsStep_eq_addFace (acc : List (String × PersonAcc)) (d : JsonDoc)
    (fid ip : String) (hfid : d.face_id = some fid)
    (hip : d.image_path = some ip) (hfid' : (fid == "") = false)
    (hip' : (ip == "") = false)
    (hgid : (pyStr (Option.join d.group_id) == "") = false) :
    personsStep acc d
      = addFace acc (pyStr (Option.join d.group_id)) fid
          (basename (dirname ip)) := by
  simp [personsStep, hfid, hip, hfid', hip']
  intro hc
  have hT : (pyStr (Option.join d.group_id) == "") = true := by
    simp only [beq_iff_eq]
    exact hc
  rw [hT] at hgid
  cases hgid

lemma addFace_nil (gid fid name : String) :
    addFace [] gid fid name = [(gid, ⟨some name, [fid]⟩)] := by
  simp [addFace, containsKey]

lemma addFace_singleton_same (gid fid name nm : String)
    (fl : List String) :
    addFace [(gid, ⟨some nm, fl⟩)] gid fid name
      = [(gid, ⟨some nm, fl ++ [fid]⟩)] := by
  have hc : containsKey [(gid, (⟨some nm, fl⟩ : PersonAcc))] gid = true := by
    simp [containsKey]
  simp [addFace, hc]

/-- A document that the C6 scenario counts as valid: all required fields
present and parseable, non-empty `face_id` and `image_path`, and
`group_id = 7`. -/
def good7 (d : JsonDoc) : Bool :=
  (convert_to_facedata d).isSome && pyTruthy d.face_id
    && pyTruthy d.image_path && decide (d.group_id = some (some 7))

/-- The face key a document contributes to group 7, if it is valid. -/
def goodFid (d : JsonDoc) : Option String :=
  if good7 d then d.face_id else none

/-- The face keys the valid documents contribute, in directory order. -/
def goodFids (docs : List JsonDoc) : List String :=
  docs.filterMap goodFid

lemma good7_spec (d : JsonDoc) (h : good7 d = true) :
    ∃ fid ip fd, d.face_id = some fid ∧ (fid == "") = false ∧
      d.image_path = some ip ∧ (ip == "") = false ∧
      d.group_id = some (some 7) ∧ convert_to_facedata d = some fd := by
  unfold good7 at h
  rw [Bool.and_eq_true, Bool.and_eq_true, Bool.and_eq_true] at h
  obtain ⟨⟨⟨hconv, hfid⟩, hip⟩, hg⟩ := h
  cases hf : d.face_id with
  | none => rw [hf] at hfid; simp [pyTruthy] at hfid
  | some fid =>
    cases hi : d.image_path with
    | none => rw [hi] at hip; simp [pyTruthy] at hip
    | some ip =>
      cases hc : convert_to_facedata d with
      | none => rw [hc] at hconv; simp at hconv
      | some fd =>
        refine ⟨fid, ip, fd, rfl, ?_, rfl, ?_, of_decide_eq_true hg, rfl⟩
        · rw [hf] at hfid
          simpa [pyTruthy] using hfid
        · rw [hi] at hip
          simpa [pyTruthy] using hip

lemma good7_false_of_noface (d : JsonDoc) (h : d.face_id = none) :
    good7 d = false := by
  simp [good7, pyTruthy, h]

lemma goodFid_of_good (d : JsonDoc) (fid : String) (h : good7 d = true)
    (hf : d.face_id = some fid) : goodFid d = some fid := by
  simp [goodFid, h, hf]

lemma goodFid_none_of_noface (d : JsonDoc) (h : d.face_id = none) :
    goodFid d = none := by
  simp [goodFid, good7_false_of_noface d h, h]

lemma personsStep_good (acc : List (String × PersonAcc)) (d : JsonDoc)
    (fid ip : String) (h : good7 d = true) (hf : d.face_id = some fid)
    (hi : d.image_path = some ip) :
    personsStep acc d = addFace acc "7" fid (basename (dirname ip)) := by
  obtain ⟨fid', ip', fd, hf', hfe, hi', hie, hg, _⟩ := good7_spec d h
  rw [hf'] at hf
  rw [hi'] at hi
  cases hf
  cases hi
  have hj : Option.join d.group_id = some 7 := by rw [hg]; rfl
  have h7 : pyStr (Option.join d.group_id) = "7" := by rw [hj]; decide
  rw [personsStep_eq_addFace acc d fid ip hf' hi' hfe hie
    (by rw [h7]; decide), h7]

lemma persons_fold_single (nm : String) (docs : List JsonDoc) :
    ∀ fl : List String,
      (∀ d ∈ docs, good7 d = true ∨ d.face_id = none) →
      docs.foldl personsStep [("7", ⟨some nm, fl⟩)]
        = [("7", ⟨some nm, fl ++ goodFids docs⟩)] := by
  induction docs with
  | nil => intro fl _; simp [goodFids]
  | cons d ds ih =>
    intro fl hEach
    have hEds : ∀ x ∈ ds, good7 x = true ∨ x.face_id = none :=
      fun x hx => hEach x (List.mem_cons_of_mem d hx)
    rw [List.foldl_cons]
    cases hb : good7 d with
    | true =>
      obtain ⟨fid, ip, fd, hf, _, hi, _, _, _⟩ := good7_spec d hb
      rw [personsStep_good _ d fid ip hb hf hi,
        addFace_singleton_same, ih (fl ++ [fid]) hEds]
      have hgf : goodFids (d :: ds) = fid :: goodFids ds := by
        unfold goodFids
        rw [List.filterMap_cons, goodFid_of_good d fid hb hf]
      rw [hgf]
      simp
    | false =>
      have hnf : d.face_id = none := by
        rcases hEach d (List.mem_cons_self d ds) with h | h
        · rw [h] at hb; cases hb
        · exact h
      rw [personsStep_skip_noface _ d hnf, ih fl hEds]
      have hgf : goodFids (d :: ds) = goodFids ds := by
        unfold goodFids
        rw [List.filterMap_cons, goodFid_none_of_noface d hnf]
      rw [hgf]

lemma persons_fold_first (docs : List JsonDoc)
    (hEach : ∀ d ∈ docs, good7 d = true ∨ d.face_id = none)
    (hne : goodFids docs ≠ []) :
    ∃ nm : String,
      docs.foldl personsStep [] = [("7", ⟨some nm, goodFids docs⟩)] := by
  induction docs with
  | nil => exact absurd rfl hne
  | cons d ds ih =>
    have hEds : ∀ x ∈ ds, good7 x = true ∨ x.face_id = none :=
      fun x hx => hEach x (List.mem_cons_of_mem d hx)
    cases hb : good7 d with
    | true =>
      obtain ⟨fid, ip, fd, hf, _, hi, _, _, _⟩ := good7_spec d hb
      refine ⟨basename (dirname ip), ?_⟩
      rw [List.foldl_cons, personsStep_good _ d fid ip hb hf hi,
        addFace_nil, persons_fold_single _ ds [fid] hEds]
      have hgf : goodFids (d :: ds) = fid :: goodFids ds := by
        unfold goodFids
        rw [List.filterMap_cons, goodFid_of_good d fid hb hf]
      rw [hgf]
      simp
    | false =>
      have hnf : d.face_id = none := by
        rcases hEach d (List.mem_cons_self d ds) with h | h
        · rw [h] at hb; cases hb
        · exact h
      have hgf : goodFids (d :: ds) = goodFids ds := by
        unfold goodFids
        rw [List.filterMap_cons, goodFid_none_of_noface d hnf]
      rw [hgf] at hne ⊢
      obtain ⟨nm, hnm⟩ := ih hEds hne
      exact ⟨nm, by rw [List.foldl_cons, personsStep_skip_noface _ d hnf, hnm]⟩

/-- Claim C7: the derived person name is the last path component of the
containing directory of `image_path` — for any document passing the
aggregation guard, the single derived row carries
`basename (dirname image_path)` as its name; in particular the document
with `image_path = "/repo/data/images/Jane_Doe/001.jpg"` and `group_id = 7`
yields the person row keyed `"7"` named `"Jane_Doe"`. -/
theorem C7_person_name_derivation (e : JsonDoc) (fid ip : String)
    (hfid : e.face_id = some fid) (hfid' : (fid == "") = false)
    (hip : e.image_path = some ip) (hip' : (ip == "") = false)
    (hgid : (pyStr (Option.join e.group_id) == "") = false)
    (d : JsonDoc) (hd1 : d.face_id = some "f1")
    (hd2 : d.image_path = some "/repo/data/images/Jane_Doe/001.jpg")
    (hd3 : d.group_id = some (some 7)) :
    populate_persons_table [] [e]
      = [(pyStr (Option.join e.group_id),
          ⟨pyStr (Option.join e.group_id), some (basename (dirname ip)),
            [fid]⟩)] ∧
    populate_persons_table [] [d]
      = [("7", ⟨"7", some "Jane_Doe", ["f1"]⟩)] := by
  constructor
  · unfold populate_persons_table
    rw [List.foldl_cons, List.foldl_nil,
      personsStep_eq_addFace [] e fid ip hfid hip hfid' hip' hgid,
      addFace_nil]
    simp [insertPersonRows, dictSet, containsKey]
  · have hj : pyStr (Option.join d.group_id) = "7" := by rw [hd3]; decide
    unfold populate_persons_table
    rw [List.foldl_cons, List.foldl_nil,
      personsStep_eq_addFace [] d "f1" "/repo/data/images/Jane_Doe/001.jpg"
        hd1 hd2 (by decide) (by decide) (by rw [hj]; decide),
      addFace_nil, hj]
    have hname : basename (dirname "/repo/data/images/Jane_Doe/001.jpg")
        = "Jane_Doe" := by decide
    rw [hname]
    simp [insertPersonRows, dictSet, containsKey]

/-- A fully valid face document of group 7 whose image lies in the
directory `Jane_Doe`. -/
def janeDoc : JsonDoc :=
  ⟨some "f1", some "/repo/data/faces/f1.png",
    some "/repo/data/images/Jane_Doe/001.jpg", some 10, some 20, some 30,
    some 40, some 1, some "unknown", some 1, some (some 7), some [1, 2]⟩

theorem C7_person_name_derivation_witness :
    janeDoc.face_id = some "f1" ∧ (("f1" : String) == "") = false ∧
    janeDoc.image_path = some "/repo/data/images/Jane_Doe/001.jpg" ∧
    (("/repo/data/images/Jane_Doe/001.jpg" : String) == "") = false ∧
    (pyStr (Option.join janeDoc.group_id) == "") = false ∧
    janeDoc.group_id = some (some 7) ∧
    (populate_persons_table [] [janeDoc]
        = [(pyStr (Option.join janeDoc.group_id),
            ⟨pyStr (Option.join janeDoc.group_id),
              some (basename (dirname "/repo/data/images/Jane_Doe/001.jpg")),
              ["f1"]⟩)] ∧
      populate_persons_table [] [janeDoc]
        = [("7", ⟨"7", some "Jane_Doe", ["f1"]⟩)]) :=
  ⟨rfl, by decide, rfl, by decide, by decide, rfl,
    C7_person_name_derivation janeDoc "f1"
      "/repo/data/images/Jane_Doe/001.jpg" rfl (by decide) rfl (by decide)
      (by decide) janeDoc rfl rfl rfl⟩

/-- A face document with an explicit `null` `group_id` (and a valid
`face_id` and `image_path`). -/
def nullGroupDoc : JsonDoc :=
  ⟨some "f1", none, some "/repo/data/images/Jane_Doe/001.jpg", none, none,
    none, none, none, none, none, some none, none⟩

/-- Claim C8 (evaluation at the failing input): contrary to the stated
invariant, the person-derivation pass does create a `PersonRecord` for a
face whose `group_id` is null — `str(None)` is the truthy string `"None"`,
so the missing-data guard does not fire and a row keyed `"None"` is
inserted. -/
theorem C8_null_group_creates_person :
    populate_persons_table [] [nullGroupDoc]
      = [("None", ⟨"None", some "Jane_Doe", ["f1"]⟩)] ∧
    containsKey (populate_persons_table [] [nullGroupDoc]) "None"
      = true := by decide

/-! ### The C6 import scenario -/

lemma assignOf_of_good (d : JsonDoc) (fid : String) (fd : FaceData)
    (hf : d.face_id = some fid) (hb : (fid == "") = false)
    (hc : convert_to_facedata d = some fd) : assignOf d = some (fid, fd) := by
  simp [assignOf, hf, hb, hc]

lemma assignOf_none_of_noface (d : JsonDoc) (h : d.face_id = none) :
    assignOf d = none := by
  simp [assignOf, h]

lemma assign_keys (docs : List JsonDoc)
    (hEach : ∀ d ∈ docs, good7 d = true ∨ d.face_id = none) :
    (docs.filterMap assignOf).map Prod.fst = goodFids docs := by
  induction docs with
  | nil => rfl
  | cons d ds ih =>
    have hEds : ∀ x ∈ ds, good7 x = true ∨ x.face_id = none :=
      fun x hx => hEach x (List.mem_cons_of_mem d hx)
    unfold goodFids
    rw [List.filterMap_cons, List.filterMap_cons]
    have ihe : (ds.filterMap assignOf).map Prod.fst = goodFids ds := ih hEds
    cases hb : good7 d with
    | true =>
      obtain ⟨fid, ip, fd, hf, hfe, hi, hie, hg, hc⟩ := good7_spec d hb
      rw [assignOf_of_good d fid fd hf hfe hc, goodFid_of_good d fid hb hf,
        List.map_cons, ihe]
      rfl
    | false =>
      have hnf : d.face_id = none := by
        rcases hEach d (List.mem_cons_self d ds) with h | h
        · rw [h] at hb; cases hb
        · exact h
      rw [assignOf_none_of_noface d hnf, goodFid_none_of_noface d hnf, ihe]
      rfl

lemma length_goodFids (docs : List JsonDoc) :
    (goodFids docs).length = (docs.filter good7).length := by
  induction docs with
  | nil => rfl
  | cons d ds ih =>
    unfold goodFids at ih ⊢
    rw [List.filterMap_cons, List.filter_cons]
    cases hb : good7 d with
    | true =>
      obtain ⟨fid, _, _, hf, _, _, _, _, _⟩ := good7_spec d hb
      rw [goodFid_of_good d fid hb hf]
      simp [hb, ih]
    | false =>
      have hgf : goodFid d = none := by simp [goodFid, hb]
      rw [hgf]
      simp [hb, ih]

/-- Claim C6: an import directory holding 3 valid JSON face documents that
share `group_id = 7` and 1 document missing `face_id` produces exactly 3
`FaceRecord`s — each readable under its own key with exactly the converted
content, and nothing stemming from the invalid document — and the
person-derivation pass produces exactly one `PersonRecord`, keyed by group
7, whose `face_ids` contains all 3 face keys. -/
theorem C6_import_three_valid_one_invalid (docs : List JsonDoc)
    (hEach : ∀ d ∈ docs, good7 d = true ∨ d.face_id = none)
    (_hLen : docs.length = 4)
    (hThree : (docs.filter good7).length = 3)
    (hNodup : (goodFids docs).Nodup) :
    (PickleCRUD.import_metadata [] docs).length = 3 ∧
    (∀ d ∈ docs, good7 d = true → ∀ fid, d.face_id = some fid →
      PickleCRUD.read (PickleCRUD.import_metadata [] docs) fid
        = convert_to_facedata d) ∧
    (∀ k : String,
      containsKey (PickleCRUD.import_metadata [] docs) k = true →
      k ∈ goodFids docs) ∧
    (∃ nm : String,
      populate_persons_table [] docs
        = [("7", ⟨"7", some nm, goodFids docs⟩)] ∧
      (goodFids docs).length = 3 ∧
      (∀ d ∈ docs, good7 d = true → ∀ fid, d.face_id = some fid →
        fid ∈ goodFids docs)) := by
  have hkeysEq : (docs.filterMap assignOf).map Prod.fst = goodFids docs :=
    assign_keys docs hEach
  have hkeysNodup : ((docs.filterMap assignOf).map Prod.fst).Nodup := by
    rw [hkeysEq]; exact hNodup
  have hpairs : PickleCRUD.import_metadata ([] : FaceStore) docs
      = docs.filterMap assignOf := by
    rw [import_metadata_eq_setAll]
    rw [setAll_fresh _ [] (fun p _ => rfl) hkeysNodup]
    rfl
  have hlen3 : (goodFids docs).length = 3 :=
    (length_goodFids docs).trans hThree
  refine ⟨?_, ?_, ?_, ?_⟩
  · rw [hpairs]
    calc (docs.filterMap assignOf).length
        = ((docs.filterMap assignOf).map Prod.fst).length := by simp
      _ = (goodFids docs).length := by rw [hkeysEq]
      _ = 3 := hlen3
  · intro d hd hg fid hf
    obtain ⟨fid', ip, fd, hf', hfe, hi, hie, hgr, hc⟩ := good7_spec d hg
    rw [hf'] at hf
    have hfid2 : fid' = fid := by injection hf
    have hmem : (fid', fd) ∈ docs.filterMap assignOf :=
      List.mem_filterMap.mpr ⟨d, hd, assignOf_of_good d fid' fd hf' hfe hc⟩
    show lookup (PickleCRUD.import_metadata [] docs) fid
      = convert_to_facedata d
    rw [← hfid2, hpairs, hc]
    exact lookup_of_mem_nodup _ fid' fd hmem hkeysNodup
  · intro k hk
    rw [hpairs, containsKey_iff_mem, hkeysEq] at hk
    exact hk
  · have hne : goodFids docs ≠ [] := by
      intro h0
      rw [h0] at hlen3
      cases hlen3
    obtain ⟨nm, hnm⟩ := persons_fold_first docs hEach hne
    refine ⟨nm, ?_, hlen3, ?_⟩
    · unfold populate_persons_table
      rw [hnm]
      rfl
    · intro d hd hg fid hf
      exact List.mem_filterMap.mpr ⟨d, hd, goodFid_of_good d fid hg hf⟩

/-- Second valid face document of the group-7 scenario. -/
def goodDoc2 : JsonDoc :=
  ⟨some "f2", some "/repo/data/faces/f2.png",
    some "/repo/data/images/Jane_Doe/002.jpg", some 11, some 21, some 31,
    some 41, some 1, some "unknown", some 1, some (some 7), some [3, 4]⟩

/-- Third valid face document of the group-7 scenario. -/
def goodDoc3 : JsonDoc :=
  ⟨some "f3", some "/repo/data/faces/f3.png",
    some "/repo/data/images/Jane_Doe/003.jpg", some 12, some 22, some 32,
    some 42, some 1, some "unknown", some 1, some (some 7), some [5, 6]⟩

/-- A document missing `face_id`, otherwise well-formed. -/
def badDoc : JsonDoc :=
  ⟨none, some "/repo/data/faces/fx.png",
    some "/repo/data/images/Jane_Doe/004.jpg", some 13, some 23, some 33,
    some 43, some 1, some "unknown", some 1, some (some 7), some [7, 8]⟩

/-- The concrete import directory of the C6 scenario. -/
def c6Docs : List JsonDoc := [janeDoc, goodDoc2, goodDoc3, badDoc]

theorem C6_import_three_valid_one_invalid_witness :
    (∀ d ∈ c6Docs, good7 d = true ∨ d.face_id = none) ∧
    c6Docs.length = 4 ∧
    (c6Docs.filter good7).length = 3 ∧
    (goodFids c6Docs).Nodup ∧
    (PickleCRUD.import_metadata [] c6Docs).length = 3 :=
  ⟨by decide, by decide, by decide, by decide,
    (C6_import_three_valid_one_invalid c6Docs (by decide) (by decide)
      (by decide) (by decide)).1⟩
